import Mathlib

/-!
Verification of the EnViT5 translation service core (src/main.py):
request validation, prompt construction, model-invocation arguments,
output decoding and language-tag stripping, and the error model.

Strings are modelled as lists of characters.  The external model and its
tokenizer are an opaque capability (`ModelEnv`) injected into the pipeline,
matching the collaborator boundary of the design: `encode` and `generate`
may fail (a Python exception becomes an `Except.error` carrying the
exception text), `batch_decode` is taken total.
-/

namespace EnViT5

/-- Python str.isspace on the code points relevant here: ASCII whitespace
(TAB, LF, VT, FF, CR, SPACE), the separators FS/GS/RS/US, NEL and NBSP.
Python additionally treats the Unicode Zs space code points as whitespace;
none of the properties below depends on the exact set. -/
def pyIsSpace (c : Char) : Bool :=
  c.toNat == 9 || c.toNat == 10 || c.toNat == 11 || c.toNat == 12 ||
  c.toNat == 13 || c.toNat == 28 || c.toNat == 29 || c.toNat == 30 ||
  c.toNat == 31 || c.toNat == 32 || c.toNat == 133 || c.toNat == 160

/-- Drop the leading characters Python str.strip() would drop. -/
def pyStripLeft : List Char → List Char
  | [] => []
  | c :: cs => if pyIsSpace c then pyStripLeft cs else c :: cs

/-- Drop the trailing characters Python str.strip() would drop. -/
def pyStripRight (s : List Char) : List Char :=
  (pyStripLeft s.reverse).reverse

/-- Python str.strip(): surrounding whitespace removed. -/
def pyStrip (s : List Char) : List Char :=
  pyStripRight (pyStripLeft s)

/-- True when the string does not start with a whitespace character. -/
def noLeadingSpace (s : List Char) : Bool :=
  match s with
  | [] => true
  | c :: _ => !pyIsSpace c

/-- True when the string does not end with a whitespace character. -/
def noTrailingSpace (s : List Char) : Bool :=
  noLeadingSpace s.reverse

/-- Python `x or d` on an optional integer: None and 0 are falsy. -/
def pyOr (x : Option Int) (d : Int) : Int :=
  match x with
  | none => d
  | some n => if n == 0 then d else n

/-- Allowed source languages (class LanguageEnum, main.py lines 56-59). -/
inductive LanguageEnum where
  | en
  | vi
  deriving DecidableEq, Repr

/-- The .value of a LanguageEnum member. -/
def LanguageEnum.value : LanguageEnum → List Char
  | .en => "en".data
  | .vi => "vi".data

/-- A validated /translate request body (class TranslateRequest, main.py
lines 62-90).  The schema type of max_length is `int | None`, so the
validated field is optional: a JSON null yields `none`, which is distinct
from an absent field (absence takes the declared default 256). -/
structure TranslateRequest where
  text : List Char
  source_lang : LanguageEnum
  max_length : Option Int
  deriving DecidableEq, Repr

/-- The /translate response body (class TranslateResponse, main.py
lines 93-113): both fields are required strings. -/
structure TranslateResponse where
  translated_text : List Char
  raw_output : List Char
  deriving DecidableEq, Repr

/-- The raw max_length field of an incoming JSON body: absent, JSON null,
an integer, or a value of some other JSON type. -/
inductive RawMaxLength where
  | absent
  | nullVal
  | intVal (n : Int)
  | otherVal
  deriving DecidableEq, Repr

/-- A raw (not yet validated) /translate JSON body. -/
structure RawRequest where
  text : Option (List Char)
  source_lang : Option (List Char)
  max_length : RawMaxLength
  deriving DecidableEq, Repr

/-- The request field a validation error points at. -/
inductive ReqField where
  | text
  | source_lang
  | max_length
  deriving DecidableEq, Repr

/-- A field-identifying validation error, as pydantic reports it. -/
structure ValidationError where
  field : ReqField
  msg : List Char
  deriving DecidableEq, Repr

/-- text: str = Field(...) — required; any string, also the empty one,
is accepted (no min_length constraint is declared). -/
def validateText : Option (List Char) → Except ValidationError (List Char)
  | none => .error ⟨.text, "Field required".data⟩
  | some s => .ok s

/-- source_lang: LanguageEnum — required; must be exactly "en" or "vi",
anything else fails naming the allowed set. -/
def validateLang : Option (List Char) → Except ValidationError LanguageEnum
  | none => .error ⟨.source_lang, "Field required".data⟩
  | some s =>
    if s = "en".data then .ok .en
    else if s = "vi".data then .ok .vi
    else .error ⟨.source_lang, "Input should be en or vi".data⟩

/-- max_length: int | None = Field(256, ge=1, le=512).  An absent field
takes the default 256; JSON null is accepted as None; an integer must lie
in [1, 512]; a value of any other JSON type is rejected.  (Lax numeric
coercion of strings is outside the model.) -/
def validateMaxLength : RawMaxLength → Except ValidationError (Option Int)
  | .absent => .ok (some 256)
  | .nullVal => .ok none
  | .intVal n =>
    if 1 ≤ n ∧ n ≤ 512 then .ok (some n)
    else .error ⟨.max_length, "Input should be in the range [1, 512]".data⟩
  | .otherVal => .error ⟨.max_length, "Input should be a valid integer".data⟩

/-- The error list contributed by one field validator. -/
def fieldErrors {α : Type} : Except ValidationError α → List ValidationError
  | .ok _ => []
  | .error e => [e]

/-- Pydantic body validation: every field is validated and all field errors
are collected (in field order); the request is well formed only when every
field validates. -/
def validateRequest (r : RawRequest) : Except (List ValidationError) TranslateRequest :=
  match validateText r.text, validateLang r.source_lang, validateMaxLength r.max_length with
  | .ok t, .ok l, .ok m => .ok ⟨t, l, m⟩
  | a, b, c => .error (fieldErrors a ++ fieldErrors b ++ fieldErrors c)

/-- The "en:" language tag. -/
def enTag : List Char := "en:".data

/-- The "vi:" language tag. -/
def viTag : List Char := "vi:".data

/-- _build_model_input (main.py lines 120-128): the language code, a colon,
a single space, then the text. -/
def buildModelInput (text : List Char) (source_lang : LanguageEnum) : List Char :=
  source_lang.value ++ ": ".data ++ text

/-- _strip_lang_prefix (main.py lines 131-138): the first matching tag of
("en:", "vi:") is removed and the remainder is stripped of surrounding
whitespace; with no matching tag the whole output is stripped. -/
def stripLangPrefix (output : List Char) : List Char :=
  if List.isPrefixOf enTag output then pyStrip (output.drop enTag.length)
  else if List.isPrefixOf viTag output then pyStrip (output.drop viTag.length)
  else pyStrip output

/-- Generation keyword arguments of the model.generate call (main.py lines
218-222).  num_return_sequences is not passed by the code, so the
transformers default of one returned sequence applies. -/
structure GenParams where
  max_length : Int
  num_beams : Nat
  num_return_sequences : Nat
  deriving DecidableEq, Repr

/-- The opaque model capability: the tokenizer applied to a batch of texts
(including the move to the compute device), model.generate, and
tokenizer.batch_decode. -/
structure ModelEnv where
  encode : List (List Char) → Except (List Char) (List (List Nat))
  generate : List (List Nat) → GenParams → Except (List Char) (List (List Nat))
  decode : List (List Nat) → List (List Char)

/-- The singleton batch handed to the tokenizer (main.py line 209). -/
def promptBatch (req : TranslateRequest) : List (List Char) :=
  [buildModelInput req.text req.source_lang]

/-- The generate arguments: max_length = req.max_length or 256 and
num_beams = 4 (main.py lines 220-221), one returned sequence by default. -/
def genParamsFor (req : TranslateRequest) : GenParams :=
  ⟨pyOr req.max_length 256, 4, 1⟩

/-- Errors leaving the translate handler: an HTTPException the handler
raises deliberately, or an exception that escapes it unhandled. -/
inductive PipelineError where
  | httpError (status : Nat) (detail : List Char)
  | unhandled (msg : List Char)
  deriving DecidableEq, Repr

/-- The translate handler body (main.py lines 190-242): build the prompt,
tokenize (NOT inside the try block), generate (inside the try block —
failures become HTTPException 500 with the cause text appended to
"Model inference failed: "), batch-decode, take sequence 0, strip the
language tag, return both fields. -/
def translate (env : ModelEnv) (req : TranslateRequest) :
    Except PipelineError TranslateResponse :=
  match env.encode (promptBatch req) with
  | .error e => .error (.unhandled e)
  | .ok inputs =>
    match env.generate inputs (genParamsFor req) with
    | .error e =>
      .error (.httpError 500 ("Model inference failed: ".data ++ e))
    | .ok output_ids =>
      match (env.decode output_ids)[0]? with
      | none => .error (.unhandled ("list index out of range".data))
      | some decoded => .ok ⟨stripLangPrefix decoded, decoded⟩

/-- Endpoint-level outcome: a 422 with the collected field errors when body
validation fails, otherwise whatever the handler produces. -/
inductive HandlerError where
  | validation (errs : List ValidationError)
  | pipeline (e : PipelineError)
  deriving DecidableEq, Repr

/-- FastAPI route behaviour: body validation first (fail fast, before any
model work), then the handler body. -/
def handleTranslate (env : ModelEnv) (r : RawRequest) :
    Except HandlerError TranslateResponse :=
  match validateRequest r with
  | .error es => .error (.validation es)
  | .ok req =>
    match translate env req with
    | .error e => .error (.pipeline e)
    | .ok resp => .ok resp

/-- Modelled from claim C1's literal wording: the recognized leading tag
("en:" or "vi:", case-sensitive) and the optional whitespace following it
are removed, and nothing else; with no recognized tag the string is
trimmed of surrounding whitespace. -/
def c1LiteralClean (s : List Char) : List Char :=
  if List.isPrefixOf enTag s then pyStripLeft (s.drop enTag.length)
  else if List.isPrefixOf viTag s then pyStripLeft (s.drop viTag.length)
  else pyStrip s

/-- The recognized leading tag of a string, when there is one. -/
def recognizedTag (s : List Char) : Option (List Char) :=
  [enTag, viTag].find? (fun p => List.isPrefixOf p s)

/-- Modelled from the amended claim C1: the recognized leading tag is
removed and the remainder is trimmed of surrounding whitespace; with no
recognized tag the string is trimmed of surrounding whitespace. -/
def c1AmendedClean (s : List Char) : List Char :=
  match recognizedTag s with
  | some p => pyStrip (s.drop p.length)
  | none => pyStrip s

/-! ### Lemmas about the Python strip model -/

theorem pyStripLeft_suffix (s : List Char) : pyStripLeft s <:+ s := by
  induction s with
  | nil => exact List.suffix_rfl
  | cons c cs ih =>
    cases h : pyIsSpace c with
    | true =>
      simp only [pyStripLeft, h, if_true]
      exact ih.trans (List.suffix_cons c cs)
    | false =>
      simp [pyStripLeft, h]

theorem noLeadingSpace_pyStripLeft (s : List Char) :
    noLeadingSpace (pyStripLeft s) = true := by
  induction s with
  | nil => rfl
  | cons c cs ih =>
    cases h : pyIsSpace c with
    | true => simpa [pyStripLeft, h] using ih
    | false => simp [pyStripLeft, noLeadingSpace, h]

theorem pyStripLeft_of_noLeadingSpace (s : List Char)
    (h : noLeadingSpace s = true) : pyStripLeft s = s := by
  cases s with
  | nil => rfl
  | cons c cs =>
    simp only [noLeadingSpace, Bool.not_eq_true'] at h
    simp [pyStripLeft, h]

theorem pyStripLeft_idem (s : List Char) :
    pyStripLeft (pyStripLeft s) = pyStripLeft s :=
  pyStripLeft_of_noLeadingSpace _ (noLeadingSpace_pyStripLeft s)

theorem noLeadingSpace_of_isPrefix {t s : List Char} (hp : t <+: s)
    (h : noLeadingSpace s = true) : noLeadingSpace t = true := by
  cases t with
  | nil => rfl
  | cons c cs =>
    obtain ⟨r, hr⟩ := hp
    subst hr
    simpa [noLeadingSpace] using h

theorem pyStripRight_isPrefix (s : List Char) : pyStripRight s <+: s := by
  have h : (pyStripLeft s.reverse).reverse <+: s.reverse.reverse :=
    List.reverse_prefix.mpr (pyStripLeft_suffix s.reverse)
  simpa [pyStripRight] using h

theorem pyStripRight_idem (s : List Char) :
    pyStripRight (pyStripRight s) = pyStripRight s := by
  simp [pyStripRight, pyStripLeft_idem]

theorem noTrailingSpace_pyStripRight (s : List Char) :
    noTrailingSpace (pyStripRight s) = true := by
  simpa [noTrailingSpace, pyStripRight] using noLeadingSpace_pyStripLeft s.reverse

theorem pyStrip_isInfix (s : List Char) : pyStrip s <:+: s :=
  (pyStripRight_isPrefix (pyStripLeft s)).isInfix.trans
    (pyStripLeft_suffix s).isInfix

theorem noLeadingSpace_pyStrip (s : List Char) :
    noLeadingSpace (pyStrip s) = true :=
  noLeadingSpace_of_isPrefix (pyStripRight_isPrefix (pyStripLeft s))
    (noLeadingSpace_pyStripLeft s)

theorem noTrailingSpace_pyStrip (s : List Char) :
    noTrailingSpace (pyStrip s) = true :=
  noTrailingSpace_pyStripRight (pyStripLeft s)

theorem pyStripLeft_pyStrip (s : List Char) :
    pyStripLeft (pyStrip s) = pyStrip s :=
  pyStripLeft_of_noLeadingSpace _ (noLeadingSpace_pyStrip s)

theorem pyStrip_idem (s : List Char) : pyStrip (pyStrip s) = pyStrip s := by
  have h1 : pyStrip (pyStrip s) = pyStripRight (pyStripRight (pyStripLeft s)) := by
    show pyStripRight (pyStripLeft (pyStrip s)) = _
    rw [pyStripLeft_pyStrip]
    rfl
  rw [h1, pyStripRight_idem]
  rfl

theorem stripLangPrefix_eq_pyStrip (s : List Char) :
    ∃ t, stripLangPrefix s = pyStrip t := by
  unfold stripLangPrefix
  cases h1 : List.isPrefixOf enTag s with
  | true => exact ⟨s.drop enTag.length, by simp [h1]⟩
  | false =>
    cases h2 : List.isPrefixOf viTag s with
    | true => exact ⟨s.drop viTag.length, by simp [h1, h2]⟩
    | false => exact ⟨s, by simp [h1, h2]⟩

/-! ### Lemmas about validation -/

theorem validateRequest_ok_fields {r : RawRequest} {req : TranslateRequest}
    (h : validateRequest r = .ok req) :
    validateText r.text = .ok req.text ∧
    validateLang r.source_lang = .ok req.source_lang ∧
    validateMaxLength r.max_length = .ok req.max_length := by
  unfold validateRequest at h
  cases ht : validateText r.text with
  | error e => rw [ht] at h; exact absurd h (by simp)
  | ok t =>
    rw [ht] at h
    cases hl : validateLang r.source_lang with
    | error e => rw [hl] at h; exact absurd h (by simp)
    | ok l =>
      rw [hl] at h
      cases hm : validateMaxLength r.max_length with
      | error e => rw [hm] at h; exact absurd h (by simp)
      | ok m =>
        rw [hm] at h
        simp only [Except.ok.injEq] at h
        subst h
        exact ⟨rfl, rfl, rfl⟩

theorem validateMaxLength_ok_range {x : RawMaxLength} {m : Option Int}
    (h : validateMaxLength x = .ok m) :
    m = none ∨ ∃ n, m = some n ∧ 1 ≤ n ∧ n ≤ 512 := by
  cases x with
  | absent =>
    simp only [validateMaxLength, Except.ok.injEq] at h
    exact .inr ⟨256, h.symm, by decide, by decide⟩
  | nullVal =>
    simp only [validateMaxLength, Except.ok.injEq] at h
    exact .inl h.symm
  | intVal n =>
    by_cases hn : 1 ≤ n ∧ n ≤ 512
    · simp only [validateMaxLength, if_pos hn, Except.ok.injEq] at h
      exact .inr ⟨n, h.symm, hn.1, hn.2⟩
    · simp only [validateMaxLength, if_neg hn] at h
      exact absurd h (by simp)
  | otherVal =>
    simp only [validateMaxLength] at h
    exact absurd h (by simp)

theorem validateRequest_error_of_lang {r : RawRequest} {e : ValidationError}
    (h : validateLang r.source_lang = .error e) :
    ∃ es, validateRequest r = .error es ∧ e ∈ es := by
  unfold validateRequest
  rw [h]
  cases ht : validateText r.text <;>
    cases hm : validateMaxLength r.max_length <;>
      exact ⟨_, rfl, by simp [fieldErrors]⟩

theorem validateRequest_error_of_max {r : RawRequest} {e : ValidationError}
    (h : validateMaxLength r.max_length = .error e) :
    ∃ es, validateRequest r = .error es ∧ e ∈ es := by
  unfold validateRequest
  rw [h]
  cases ht : validateText r.text <;>
    cases hl : validateLang r.source_lang <;>
      exact ⟨_, rfl, by simp [fieldErrors]⟩

theorem validateLang_invalid {s : List Char}
    (h1 : s ≠ "en".data) (h2 : s ≠ "vi".data) :
    validateLang (some s) =
      .error ⟨.source_lang, "Input should be en or vi".data⟩ := by
  simp [validateLang, h1, h2]

/-! ### C1 -/

/-- The C1 trailing-whitespace counterexample input "en:Hello " (with one
trailing space). -/
def c1Input : List Char := "en:Hello ".data

/-- Counterexample to C1 as stated: on the output "en:Hello " the code also
trims the trailing whitespace of the remainder ("Hello"), while the claim
as written removes only the tag and the whitespace following it
("Hello "). -/
theorem c1_trailing_space_counterexample :
    stripLangPrefix c1Input ≠ c1LiteralClean c1Input := by decide

/-- C1 (amended): for every decoded model output string S, translatedText
equals S with the recognized leading tag removed and the remainder trimmed
of surrounding whitespace; if S starts with no recognized tag,
translatedText equals S with surrounding whitespace trimmed. -/
theorem c1_clean_matches_amended_spec (s : List Char) :
    stripLangPrefix s = c1AmendedClean s := by
  unfold stripLangPrefix c1AmendedClean recognizedTag
  cases h1 : List.isPrefixOf enTag s with
  | true => simp [List.find?, h1]
  | false =>
    cases h2 : List.isPrefixOf viTag s with
    | true => simp [List.find?, h1, h2]
    | false => simp [List.find?, h1, h2]

/-! ### C3 -/

/-- Counterexample to C3 as stated: on "en:vi:x" the first strip leaves
"vi:x", which still starts with a recognized tag, so a second strip
changes the string again — stripping is not idempotent on every string. -/
theorem c3_double_tag_counterexample :
    stripLangPrefix (stripLangPrefix ("en:vi:x".data)) ≠
      stripLangPrefix ("en:vi:x".data) := by decide

/-- C3 (amended): stripping is idempotent on every string S whose stripped
result does not itself start with a recognized tag — in particular
whenever at most one recognized tag appears at the start of S. -/
theorem c3_strip_idempotent_amended (s : List Char)
    (h : recognizedTag (stripLangPrefix s) = none) :
    stripLangPrefix (stripLangPrefix s) = stripLangPrefix s := by
  obtain ⟨t, ht⟩ := stripLangPrefix_eq_pyStrip s
  have h1 : List.isPrefixOf enTag (stripLangPrefix s) = false := by
    cases he : List.isPrefixOf enTag (stripLangPrefix s) with
    | true => unfold recognizedTag at h; simp [List.find?, he] at h
    | false => rfl
  have h2 : List.isPrefixOf viTag (stripLangPrefix s) = false := by
    cases hv : List.isPrefixOf viTag (stripLangPrefix s) with
    | true =>
      unfold recognizedTag at h
      cases he : List.isPrefixOf enTag (stripLangPrefix s) <;>
        simp [List.find?, he, hv] at h
    | false => rfl
  generalize hx : stripLangPrefix s = x at h1 h2 ht ⊢
  unfold stripLangPrefix
  simp only [h1, h2]
  simp only [Bool.false_eq_true, if_false]
  rw [ht, pyStrip_idem]

/-- Witness for C3 (amended) at the concrete output "en: Hello". -/
theorem c3_strip_idempotent_amended_witness :
    recognizedTag (stripLangPrefix ("en: Hello".data)) = none ∧
    stripLangPrefix (stripLangPrefix ("en: Hello".data)) =
      stripLangPrefix ("en: Hello".data) :=
  ⟨by decide, c3_strip_idempotent_amended ("en: Hello".data) (by decide)⟩

/-! ### C4 -/

/-- A raw request supplying an explicit JSON null for max_length. -/
def rawNullMax : RawRequest := ⟨some ("Hello".data), some ("en".data), .nullVal⟩

/-- Counterexample to C4 as stated: an explicit JSON null for max_length is
supplied and is not an integer in [1, 512], yet the request is accepted
(the schema type of the field is int | None), not rejected. -/
theorem c4_null_max_length_counterexample :
    validateRequest rawNullMax = .ok ⟨"Hello".data, .en, none⟩ := rfl

/-- C4 (amended): a direction code other than "en"/"vi", an integer
max_length outside [1, 512], and a max_length of a non-integer non-null
JSON type are each rejected with a validation error naming the offending
field, and a validation failure stops the request before any model work;
an accepted request carries either no max_length (explicit null) or an
integer in [1, 512]; an absent max_length defaults to 256; an explicit
null yields an unset max_length; 1 and 512 are accepted. -/
theorem c4_validation_amended (r : RawRequest) :
    (∀ s, r.source_lang = some s → s ≠ "en".data → s ≠ "vi".data →
      ∃ es, validateRequest r = .error es ∧
        ∃ m, ValidationError.mk .source_lang m ∈ es) ∧
    (∀ n, r.max_length = .intVal n → ¬(1 ≤ n ∧ n ≤ 512) →
      ∃ es, validateRequest r = .error es ∧
        ∃ m, ValidationError.mk .max_length m ∈ es) ∧
    (r.max_length = .otherVal →
      ∃ es, validateRequest r = .error es ∧
        ∃ m, ValidationError.mk .max_length m ∈ es) ∧
    (∀ es env, validateRequest r = .error es →
      handleTranslate env r = .error (.validation es)) ∧
    (∀ req, validateRequest r = .ok req →
      req.max_length = none ∨ ∃ n, req.max_length = some n ∧ 1 ≤ n ∧ n ≤ 512) ∧
    (r.max_length = .absent →
      ∀ req, validateRequest r = .ok req → req.max_length = some 256) ∧
    (r.max_length = .nullVal →
      ∀ req, validateRequest r = .ok req → req.max_length = none) ∧
    validateMaxLength (.intVal 1) = .ok (some 1) ∧
    validateMaxLength (.intVal 512) = .ok (some 512) := by
  refine ⟨?_, ?_, ?_, ?_, ?_, ?_, ?_, rfl, rfl⟩
  · intro s hs h1 h2
    have hv : validateLang r.source_lang =
        .error ⟨.source_lang, "Input should be en or vi".data⟩ := by
      rw [hs]; exact validateLang_invalid h1 h2
    obtain ⟨es, hes, hmem⟩ := validateRequest_error_of_lang hv
    exact ⟨es, hes, _, hmem⟩
  · intro n hn hrange
    have hv : validateMaxLength r.max_length =
        .error ⟨.max_length, "Input should be in the range [1, 512]".data⟩ := by
      rw [hn]; simp [validateMaxLength, hrange]
    obtain ⟨es, hes, hmem⟩ := validateRequest_error_of_max hv
    exact ⟨es, hes, _, hmem⟩
  · intro ho
    have hv : validateMaxLength r.max_length =
        .error ⟨.max_length, "Input should be a valid integer".data⟩ := by
      rw [ho]; rfl
    obtain ⟨es, hes, hmem⟩ := validateRequest_error_of_max hv
    exact ⟨es, hes, _, hmem⟩
  · intro es env h
    unfold handleTranslate
    rw [h]
  · intro req h
    exact validateMaxLength_ok_range (validateRequest_ok_fields h).2.2
  · intro ha req h
    have hm := (validateRequest_ok_fields h).2.2
    rw [ha] at hm
    simp only [validateMaxLength, Except.ok.injEq] at hm
    exact hm.symm
  · intro ha req h
    have hm := (validateRequest_ok_fields h).2.2
    rw [ha] at hm
    simp only [validateMaxLength, Except.ok.injEq] at hm
    exact hm.symm

/-- A raw request supplying the unsupported direction code "fr". -/
def rawBadLang : RawRequest := ⟨some ("Bonjour".data), some ("fr".data), .absent⟩

/-- Witness for C4 (amended): source_lang = "fr" is rejected with an error
on the source_lang field, and max_length = 512 validates. -/
theorem c4_validation_amended_witness :
    (∃ es, validateRequest rawBadLang = .error es ∧
      ∃ m, ValidationError.mk .source_lang m ∈ es) ∧
    validateMaxLength (.intVal 512) = .ok (some 512) :=
  ⟨(c4_validation_amended rawBadLang).1 ("fr".data) rfl (by decide) (by decide),
   (c4_validation_amended rawBadLang).2.2.2.2.2.2.2.2⟩

/-! ### C5 -/

/-- C5: the constructed prompt is exactly the direction's short code, a
colon and a space, then the text; it therefore begins with "en: " for
direction en and "vi: " for direction vi, and dropping that exact prefix
from the prompt recovers the text unchanged. -/
theorem c5_prompt_roundtrip (t : List Char) (d : LanguageEnum) :
    buildModelInput t d = d.value ++ ": ".data ++ t ∧
    d.value ++ ": ".data <+: buildModelInput t d ∧
    (buildModelInput t d).drop (d.value ++ ": ".data).length = t ∧
    buildModelInput t LanguageEnum.en = "en: ".data ++ t ∧
    buildModelInput t LanguageEnum.vi = "vi: ".data ++ t := by
  refine ⟨rfl, ⟨t, by simp [buildModelInput]⟩, ?_, rfl, rfl⟩
  have h : buildModelInput t d = (d.value ++ ": ".data) ++ t := by
    simp [buildModelInput]
  rw [h, List.drop_left]

/-! ### C6 -/

/-- C6: the cleaned translation is always a contiguous substring of the raw
decoded output, and in particular never longer than it. -/
theorem c6_clean_is_substring (s : List Char) :
    stripLangPrefix s <:+: s ∧ (stripLangPrefix s).length ≤ s.length := by
  have hinf : stripLangPrefix s <:+: s := by
    unfold stripLangPrefix
    cases h1 : List.isPrefixOf enTag s with
    | true =>
      simp only [h1, if_true]
      exact (pyStrip_isInfix _).trans (List.drop_suffix _ _).isInfix
    | false =>
      cases h2 : List.isPrefixOf viTag s with
      | true =>
        simp only [h1, h2, Bool.false_eq_true, if_false, if_true]
        exact (pyStrip_isInfix _).trans (List.drop_suffix _ _).isInfix
      | false =>
        simp only [h1, h2, Bool.false_eq_true, if_false]
        exact pyStrip_isInfix s
  exact ⟨hinf, hinf.length_le⟩

/-! ### C2 -/

/-- A model stub whose tokenizer raises. -/
def envTokFail : ModelEnv :=
  ⟨fun _ => .error ("tokenizer raised".data),
   fun _ _ => .ok [[0]],
   fun _ => []⟩

/-- A demonstration request. -/
def reqDemo : TranslateRequest := ⟨"Hello".data, .en, some 256⟩

/-- Counterexample to C2 as stated: the tokenizer call sits outside the
try block of the handler, so a tokenization failure propagates as an
unhandled fault instead of being re-signaled as the server-class
inference error. -/
theorem c2_tokenizer_failure_counterexample :
    translate envTokFail reqDemo =
      .error (.unhandled ("tokenizer raised".data)) := rfl

/-- C2 (amended): a failure raised by the model.generate call is caught at
the pipeline boundary and re-signaled as a server-class error (HTTP 500)
whose detail is "Model inference failed: " followed by the cause text;
failures raised by the tokenizer (or by decoding) are not caught. -/
theorem c2_generation_failure_becomes_500 (env : ModelEnv)
    (req : TranslateRequest) (inputs : List (List Nat)) (e : List Char)
    (henc : env.encode (promptBatch req) = .ok inputs)
    (hgen : env.generate inputs (genParamsFor req) = .error e) :
    translate env req =
      .error (.httpError 500 ("Model inference failed: ".data ++ e)) := by
  simp only [translate, henc, hgen]

/-- A model stub whose generate call raises. -/
def envGenFail : ModelEnv :=
  ⟨fun _ => .ok [[0]],
   fun _ _ => .error ("CUDA out of memory".data),
   fun _ => []⟩

/-- Witness for C2 (amended): a generation fault surfaces as HTTP 500 with
the cause text in the detail. -/
theorem c2_generation_failure_becomes_500_witness :
    translate envGenFail reqDemo =
      .error (.httpError 500
        ("Model inference failed: ".data ++ "CUDA out of memory".data)) :=
  c2_generation_failure_becomes_500 envGenFail reqDemo [[0]]
    ("CUDA out of memory".data) rfl rfl

/-! ### C7 -/

/-- A raw request supplying an explicit JSON null for max_length, for C7. -/
def rawNullMax7 : RawRequest := ⟨some ("Hi".data), some ("en".data), .nullVal⟩

/-- The validated form of rawNullMax7. -/
def reqNullMax7 : TranslateRequest := ⟨"Hi".data, .en, none⟩

/-- Counterexample to C7 as stated: a body with an explicit null max_length
validates to a request whose max_length is unset, and the generate call
then uses 256, which is not the request's max_length. -/
theorem c7_null_max_length_counterexample :
    validateRequest rawNullMax7 = .ok reqNullMax7 ∧
    reqNullMax7.max_length ≠ some ((genParamsFor reqNullMax7).max_length) :=
  ⟨rfl, by decide⟩

/-- C7 (amended): for every validated request the generate call uses beam
width 4, one returned output sequence (the transformers default), a batch
of size 1, and a max token bound equal to the request's max_length when
that is set and 256 when it is null; the first decoded sequence is the one
returned to the caller. -/
theorem c7_generation_args (raw : RawRequest) (req : TranslateRequest)
    (h : validateRequest raw = .ok req) :
    (genParamsFor req).num_beams = 4 ∧
    (genParamsFor req).num_return_sequences = 1 ∧
    (promptBatch req).length = 1 ∧
    (∀ n, req.max_length = some n → (genParamsFor req).max_length = n) ∧
    (req.max_length = none → (genParamsFor req).max_length = 256) ∧
    (∀ env inputs output_ids d,
      env.encode (promptBatch req) = .ok inputs →
      env.generate inputs (genParamsFor req) = .ok output_ids →
      (env.decode output_ids)[0]? = some d →
      translate env req = .ok ⟨stripLangPrefix d, d⟩) := by
  refine ⟨rfl, rfl, rfl, ?_, ?_, ?_⟩
  · intro n hn
    have hr := validateMaxLength_ok_range (validateRequest_ok_fields h).2.2
    rw [hn] at hr
    rcases hr with h0 | ⟨m, hm, hm1, hm2⟩
    · exact absurd h0 (by simp)
    · have hnm : n = m := by simpa using hm
      subst hnm
      have hne : n ≠ 0 := by omega
      simp [genParamsFor, pyOr, hn, hne]
  · intro hn
    simp [genParamsFor, pyOr, hn]
  · intro env inputs output_ids d henc hgen hdec
    simp only [translate, henc, hgen, hdec]

/-- A raw request with direction vi and max_length 64, for the C7 witness. -/
def rawW7 : RawRequest := ⟨some ("Hi there".data), some ("vi".data), .intVal 64⟩

/-- The validated form of rawW7. -/
def reqW7 : TranslateRequest := ⟨"Hi there".data, .vi, some 64⟩

/-- Witness for C7 (amended) at a concrete validated request. -/
theorem c7_generation_args_witness :
    (genParamsFor reqW7).num_beams = 4 ∧ (genParamsFor reqW7).max_length = 64 :=
  ⟨(c7_generation_args rawW7 reqW7 rfl).1,
   (c7_generation_args rawW7 reqW7 rfl).2.2.2.1 64 rfl⟩

/-! ### C8 -/

/-- C8: a translate call either fails with an error or succeeds with a
response populating both fields — the raw decoded output together with its
stripped form; no partial response is possible. -/
theorem c8_no_partial_response (env : ModelEnv) (req : TranslateRequest) :
    (∃ e, translate env req = .error e) ∨
    (∃ d, translate env req = .ok ⟨stripLangPrefix d, d⟩) := by
  cases henc : env.encode (promptBatch req) with
  | error e => exact .inl ⟨.unhandled e, by simp only [translate, henc]⟩
  | ok inputs =>
    cases hgen : env.generate inputs (genParamsFor req) with
    | error e =>
      exact .inl ⟨.httpError 500 ("Model inference failed: ".data ++ e),
        by simp only [translate, henc, hgen]⟩
    | ok output_ids =>
      cases hdec : (env.decode output_ids)[0]? with
      | none =>
        exact .inl ⟨.unhandled ("list index out of range".data),
          by simp only [translate, henc, hgen, hdec]⟩
      | some d =>
        exact .inr ⟨d, by simp only [translate, henc, hgen, hdec]⟩

/-! ### C9 -/

/-- C9: a request whose text is empty or whitespace-only passes validation
unchanged (the lenient policy is what the code implements), and the prompt
built for it is just the direction code, a colon, a space, and that
text. -/
theorem c9_blank_text_accepted (t : List Char) (d : LanguageEnum)
    (h : t.all pyIsSpace = true) :
    validateText (some t) = .ok t ∧
    validateRequest ⟨some t, some d.value, .absent⟩ = .ok ⟨t, d, some 256⟩ ∧
    promptBatch ⟨t, d, some 256⟩ = [d.value ++ ": ".data ++ t] := by
  refine ⟨rfl, ?_, rfl⟩
  cases d with
  | en => rfl
  | vi => rfl

/-- Witness for C9 at the empty text. -/
theorem c9_blank_text_accepted_witness :
    ([] : List Char).all pyIsSpace = true ∧
    validateRequest ⟨some [], some (LanguageEnum.value .en), .absent⟩ =
      .ok ⟨[], .en, some 256⟩ :=
  ⟨rfl, (c9_blank_text_accepted [] .en rfl).2.1⟩

/-! ### C10 -/

/-- C10: the cleaned translation never has leading or trailing whitespace:
even when a recognized tag is removed, the remainder is trimmed on both
sides. -/
theorem c10_clean_fully_trimmed (s : List Char) :
    noLeadingSpace (stripLangPrefix s) = true ∧
    noTrailingSpace (stripLangPrefix s) = true := by
  obtain ⟨t, ht⟩ := stripLangPrefix_eq_pyStrip s
  rw [ht]
  exact ⟨noLeadingSpace_pyStrip t, noTrailingSpace_pyStrip t⟩

end EnViT5
